import Mathlib

/-!
Shallow embedding of `src/config/authentication.ts` (tree-gateway): the
authentication configuration schemas and validation entry points built on
Joi.  Candidate configuration values are modelled by `JValue`; each Joi
schema declared in the source becomes a list of `FieldRule`s evaluated by
`validateObj`, which mirrors Joi object validation with the options the
source uses (default options: abort on the first violation, unknown keys
rejected, and `Joi.string()` rejecting the empty string).  No schema in
the file declares a `.default(...)` and, on values already of a rule's
shape, Joi's conversion step is the identity, so successful validation
returns the input value unchanged.  Convert-mode coercions between shapes
(the strings `'true'`/`'false'` for `Joi.boolean()`, JSON-parsing of a
string candidate for objects and arrays) are not modelled: on those
inputs the model is stricter than the source, so acceptance hypotheses
stated through the model's rules simply do not cover candidates that rely
on such a coercion.
-/

/-- A structured configuration value: the JSON-like data a caller hands to
the validators (string, boolean, array, object as a key/value list). -/
inductive JValue where
  | vstr : String → JValue
  | vbool : Bool → JValue
  | varr : List JValue → JValue
  | vobj : List (String × JValue) → JValue

/-- The rule violations the schemas of this file can report, mirroring the
Joi error types each construct produces: `any.required`, `string.base`,
`string.empty` (the empty string, rejected by default),
`boolean.base`, array/items failures, `alternatives.base`,
`object.allowUnknown`, `object.base`, `object.missing` (xor: no peer
present), `object.xor` (xor: more than one peer present), and a failure of
the delegated middleware-config rule set. -/
inductive Violation where
  | requiredMissing (key : String)
  | notString (key : String)
  | emptyString (key : String)
  | notBoolean (key : String)
  | notArrayOfStrings (key : String)
  | altNoMatch (key : String)
  | unknownKey (key : String)
  | notObject (key : String)
  | xorMissing (peers : List String)
  | xorConflict (peers : List String)
  | middlewareInvalid (key : String)
deriving DecidableEq

/-- Modelled from the spec: `ValidationError` (imported from `./errors`,
which is not under `src/`) is the single error kind thrown by the entry
points, wrapping the underlying rule violation. -/
structure ValidationError where
  violation : Violation
deriving DecidableEq

/-- The first value bound to key `k` in an object's key/value list. -/
def findVal (k : String) : List (String × JValue) → Option JValue
  | [] => none
  | (k', v) :: rest => if k' = k then some v else findVal k rest

/-- Key presence, Joi's notion used by requiredness and by `xor`. -/
def hasKey (k : String) (kvs : List (String × JValue)) : Bool :=
  (findVal k kvs).isSome

/-- Whether a value is a string the `Joi.string()` rule accepts: a
non-empty one. -/
def isNonemptyStr : JValue → Bool
  | .vstr s => !s.isEmpty
  | _ => false

/-- `Joi.string()`: accepts exactly non-empty strings — by default Joi
rejects `''` with a `string.empty` violation unless `.allow('')` is
declared, which no schema in this file does.  An accepted value is kept
unchanged (conversion is the identity on values that are already
strings). -/
def checkStr (k : String) : JValue → Except Violation JValue
  | .vstr s => if s.isEmpty then .error (.emptyString k) else .ok (.vstr s)
  | _ => .error (.notString k)

/-- `Joi.boolean()` on the modelled value forms (convert-mode coercion of
the strings `'true'`/`'false'` is not modelled: the model is stricter
than the source on those inputs). -/
def checkBool (k : String) : JValue → Except Violation JValue
  | .vbool b => .ok (.vbool b)
  | _ => .error (.notBoolean k)

/-- `Joi.array().items(Joi.string())`: an array each of whose elements
passes the `Joi.string()` rule — so all non-empty strings — kept
unchanged. -/
def checkArrStr (k : String) : JValue → Except Violation JValue
  | .varr vs => if vs.all isNonemptyStr then .ok (.varr vs) else .error (.notArrayOfStrings k)
  | _ => .error (.notArrayOfStrings k)

/-- Modelled from the spec: `middlewareConfigValidatorSchema` (imported
from `./middleware`, which is not under `src/`) is the opaque external
rule set this file delegates to wherever a field holds a middleware
configuration reference (`verify`, `strategy`).  The spec requires
treating it as structure-free ("this core must not assume anything about
its internal structure beyond it is present/absent"), so it is modelled
as an arbitrary acceptance predicate `mw`; an accepted value is kept
unchanged. -/
def mwCheck (mw : JValue → Bool) (k : String) (v : JValue) : Except Violation JValue :=
  if mw v then .ok v else .error (.middlewareInvalid k)

/-- `Joi.alternatives([Joi.array().items(Joi.string()), Joi.string()])`,
the rule for `group`: each alternative is tried in order and the matching
value is kept unchanged — alternatives performs no coercion between the
two shapes. -/
def checkGroup (k : String) (v : JValue) : Except Violation JValue :=
  match checkArrStr k v with
  | .ok v' => .ok v'
  | .error _ =>
    match checkStr k v with
    | .ok v' => .ok v'
    | .error _ => .error (.altNoMatch k)

/-- One key of a Joi object schema: the field name, whether `.required()`
was declared, and the field's own rule. -/
structure FieldRule where
  key : String
  required : Bool
  check : JValue → Except Violation JValue

/-- Process the declared keys in order (Joi's default abort-early): a
required key that is absent fails with `any.required`; a present key's
value is checked by its rule. -/
def checkFields (rules : List FieldRule) (kvs : List (String × JValue)) :
    Except Violation Unit :=
  match rules with
  | [] => .ok ()
  | r :: rest =>
    match findVal r.key kvs with
    | none => if r.required then .error (.requiredMissing r.key) else checkFields rest kvs
    | some v =>
      match r.check v with
      | .error e => .error e
      | .ok _ => checkFields rest kvs

/-- Joi's default `allowUnknown: false`: any key of the candidate outside
the declared key set fails with `object.allowUnknown`. -/
def checkUnknown (allowed : List String) (kvs : List (String × JValue)) :
    Except Violation Unit :=
  match kvs.find? (fun kv => !(allowed.contains kv.1)) with
  | some kv => .error (.unknownKey kv.1)
  | none => .ok ()

/-- `.xor(a, b)`: exactly one of the two peers must be present
(`object.missing` when neither is, `object.xor` when both are). -/
def checkXors (xors : List (String × String)) (kvs : List (String × JValue)) :
    Except Violation Unit :=
  match xors with
  | [] => .ok ()
  | (a, b) :: rest =>
    match hasKey a kvs, hasKey b kvs with
    | true, true => .error (.xorConflict [a, b])
    | false, false => .error (.xorMissing [a, b])
    | _, _ => checkXors rest kvs

/-- `Joi.object().keys({...})` (with `.xor` peers where declared): the
candidate must be an object (convert-mode JSON-parsing of a string
candidate is not modelled); its declared keys, its unknown keys and the
xor constraints are checked in turn, and on success the value is returned
unchanged (no key of these schemas defaults or, on values of its shape,
converts). -/
def validateObj (name : String) (rules : List FieldRule)
    (xors : List (String × String)) : JValue → Except Violation JValue
  | .vobj kvs =>
    match checkFields rules kvs with
    | .error e => .error e
    | .ok _ =>
      match checkUnknown (rules.map FieldRule.key) kvs with
      | .error e => .error e
      | .ok _ =>
        match checkXors xors kvs with
        | .error e => .error e
        | .ok _ => .ok (.vobj kvs)
  | _ => .error (.notObject name)

/-- `jwtRequestExtractorSchema`: five optional string fields, no
cross-field rule. -/
def jwtRequestExtractorSchema : List FieldRule :=
  [⟨"authHeader", false, checkStr "authHeader"⟩,
   ⟨"bodyField", false, checkStr "bodyField"⟩,
   ⟨"cookie", false, checkStr "cookie"⟩,
   ⟨"header", false, checkStr "header"⟩,
   ⟨"queryParam", false, checkStr "queryParam"⟩]

/-- `jwtAuthenticationSchema`, parameterized by the opaque middleware
acceptance predicate `mw` (standing for `middlewareConfigValidatorSchema`):
`secretOrKey` is the only required key. -/
def jwtAuthenticationSchema (mw : JValue → Bool) : List FieldRule :=
  [⟨"algorithms", false, checkArrStr "algorithms"⟩,
   ⟨"audience", false, checkStr "audience"⟩,
   ⟨"extractFrom", false, validateObj "extractFrom" jwtRequestExtractorSchema []⟩,
   ⟨"ignoreExpiration", false, checkBool "ignoreExpiration"⟩,
   ⟨"issuer", false, checkStr "issuer"⟩,
   ⟨"secretOrKey", true, checkStr "secretOrKey"⟩,
   ⟨"verify", false, mwCheck mw "verify"⟩]

/-- `basicAuthenticationSchema`: `verify` required, delegated to the
middleware rule set. -/
def basicAuthenticationSchema (mw : JValue → Bool) : List FieldRule :=
  [⟨"verify", true, mwCheck mw "verify"⟩]

/-- `localAuthenticationSchema`: `passwordField`/`usernameField` optional
strings (no `.default(...)` is declared for either), `verify` required. -/
def localAuthenticationSchema (mw : JValue → Bool) : List FieldRule :=
  [⟨"passwordField", false, checkStr "passwordField"⟩,
   ⟨"usernameField", false, checkStr "usernameField"⟩,
   ⟨"verify", true, mwCheck mw "verify"⟩]

/-- `authenticationValidatorSchema`: `strategy` required. -/
def authenticationValidatorSchema (mw : JValue → Bool) : List FieldRule :=
  [⟨"strategy", true, mwCheck mw "strategy"⟩]

/-- The keys of `apiAuthenticationValidatorSchema`: the base schema's
required `strategy` is overridden by the `.keys({...})` call to the plain
(optional) middleware rule, and `group`/`use` are added. -/
def apiAuthenticationValidatorRules (mw : JValue → Bool) : List FieldRule :=
  [⟨"group", false, checkGroup "group"⟩,
   ⟨"strategy", false, mwCheck mw "strategy"⟩,
   ⟨"use", false, checkStr "use"⟩]

/-- The `.xor('strategy', 'use')` constraint of
`apiAuthenticationValidatorSchema`. -/
def apiAuthenticationValidatorXors : List (String × String) :=
  [("strategy", "use")]

/-- `Joi.validate(config, schema)` followed by the source's
`if (result.error) { throw new ValidationError(result.error); } else
{ return result.value; }`, modelled as `Except`. -/
def joiValidate (rules : List FieldRule) (xors : List (String × String))
    (config : JValue) : Except ValidationError JValue :=
  match validateObj "value" rules xors config with
  | .error e => .error ⟨e⟩
  | .ok v => .ok v

/-- `validateLocalAuthConfig`. -/
def validateLocalAuthConfig (mw : JValue → Bool) (config : JValue) :
    Except ValidationError JValue :=
  joiValidate (localAuthenticationSchema mw) [] config

/-- `validateBasicAuthConfig`. -/
def validateBasicAuthConfig (mw : JValue → Bool) (config : JValue) :
    Except ValidationError JValue :=
  joiValidate (basicAuthenticationSchema mw) [] config

/-- `validateJwtAuthConfig`. -/
def validateJwtAuthConfig (mw : JValue → Bool) (config : JValue) :
    Except ValidationError JValue :=
  joiValidate (jwtAuthenticationSchema mw) [] config

/-- Validation of a candidate against `apiAuthenticationValidatorSchema`
(the schema is exported for the gateway loader; applying it through
`Joi.validate` is the same evaluation the entry points use). -/
def validateApiAuthentication (mw : JValue → Bool) (config : JValue) :
    Except ValidationError JValue :=
  joiValidate (apiAuthenticationValidatorRules mw) apiAuthenticationValidatorXors config

/-- Whether a validation outcome is a success (a returned value). -/
def isOkB : Except ValidationError JValue → Bool
  | .ok _ => true
  | .error _ => false

/-- Whether a validation outcome is a thrown `ValidationError`. -/
def isErrB : Except ValidationError JValue → Bool
  | .error _ => true
  | .ok _ => false

/-- Boolean form of "this field rule accepts the candidate": the key is
absent and optional, or present with the field's own check succeeding. -/
def ruleOkB (r : FieldRule) (kvs : List (String × JValue)) : Bool :=
  match findVal r.key kvs with
  | none => !r.required
  | some v =>
    match r.check v with
    | .ok _ => true
    | .error _ => false

/-- A middleware predicate accepting every value, used to instantiate the
opaque middleware rule set at concrete inputs. -/
def mwAll : JValue → Bool := fun _ => true

/-- The jwt schema keys processed before `secretOrKey` (Joi abort-early
processes declared keys in order). -/
def jwtRulesBeforeSecret : List FieldRule :=
  [⟨"algorithms", false, checkArrStr "algorithms"⟩,
   ⟨"audience", false, checkStr "audience"⟩,
   ⟨"extractFrom", false, validateObj "extractFrom" jwtRequestExtractorSchema []⟩,
   ⟨"ignoreExpiration", false, checkBool "ignoreExpiration"⟩,
   ⟨"issuer", false, checkStr "issuer"⟩]

/-- The local schema keys processed before `verify`. -/
def localRulesBeforeVerify : List FieldRule :=
  [⟨"passwordField", false, checkStr "passwordField"⟩,
   ⟨"usernameField", false, checkStr "usernameField"⟩]

theorem checkFields_ok_iff (rules : List FieldRule) (kvs : List (String × JValue)) :
    checkFields rules kvs = .ok () ↔ rules.all (fun r => ruleOkB r kvs) = true := by
  induction rules with
  | nil => simp [checkFields]
  | cons r rest ih =>
    cases hf : findVal r.key kvs with
    | none =>
      cases hr : r.required with
      | true =>
        have hrule : ruleOkB r kvs = false := by simp [ruleOkB, hf, hr]
        simp [checkFields, hf, hr, hrule]
      | false =>
        have hrule : ruleOkB r kvs = true := by simp [ruleOkB, hf, hr]
        simp [checkFields, hf, hr, hrule, ih]
    | some v =>
      cases hc : r.check v with
      | error e =>
        have hrule : ruleOkB r kvs = false := by simp [ruleOkB, hf, hc]
        simp [checkFields, hf, hc, hrule]
      | ok v' =>
        have hrule : ruleOkB r kvs = true := by simp [ruleOkB, hf, hc]
        simp [checkFields, hf, hc, hrule, ih]

theorem checkFields_required_absent (pre : List FieldRule) (k : String)
    (c : JValue → Except Violation JValue) (post : List FieldRule)
    (kvs : List (String × JValue))
    (hpre : pre.all (fun r => ruleOkB r kvs) = true)
    (habs : findVal k kvs = none) :
    checkFields (pre ++ ⟨k, true, c⟩ :: post) kvs = .error (.requiredMissing k) := by
  induction pre with
  | nil => simp [checkFields, habs]
  | cons r rest ih =>
    simp only [List.all_cons, Bool.and_eq_true] at hpre
    obtain ⟨h1, h2⟩ := hpre
    cases hf : findVal r.key kvs with
    | none =>
      simp only [ruleOkB, hf, Bool.not_eq_true'] at h1
      simp [checkFields, hf, h1, ih h2]
    | some v =>
      simp only [ruleOkB, hf] at h1
      cases hc : r.check v with
      | error e => rw [hc] at h1; simp at h1
      | ok v' => simp [checkFields, hf, hc, ih h2]

theorem checkUnknown_ok_iff (allowed : List String) (kvs : List (String × JValue)) :
    checkUnknown allowed kvs = .ok () ↔ ∀ kv ∈ kvs, allowed.contains kv.1 = true := by
  unfold checkUnknown
  cases hf : kvs.find? (fun kv => !(allowed.contains kv.1)) with
  | some kv =>
    simp only [reduceCtorEq, false_iff, not_forall]
    have hp := List.find?_some hf
    have hm := List.mem_of_find?_eq_some hf
    refine ⟨kv, hm, ?_⟩
    simp only [Bool.not_eq_true'] at hp
    simpa using hp
  | none =>
    simp only [true_iff]
    intro kv hkv
    have := List.find?_eq_none.mp hf kv hkv
    simpa using this

theorem validateObj_vobj_ok_iff (name : String) (rules : List FieldRule)
    (xors : List (String × String)) (kvs : List (String × JValue)) (r : JValue) :
    validateObj name rules xors (.vobj kvs) = .ok r ↔
      (r = .vobj kvs ∧ checkFields rules kvs = .ok () ∧
       checkUnknown (rules.map FieldRule.key) kvs = .ok () ∧
       checkXors xors kvs = .ok ()) := by
  cases h1 : checkFields rules kvs with
  | error e => simp [validateObj, h1]
  | ok u =>
    cases u
    cases h2 : checkUnknown (rules.map FieldRule.key) kvs with
    | error e => simp [validateObj, h1, h2]
    | ok u2 =>
      cases u2
      cases h3 : checkXors xors kvs with
      | error e => simp [validateObj, h1, h2, h3]
      | ok u3 =>
        cases u3
        simp [validateObj, h1, h2, h3, eq_comm]

theorem joiValidate_ok_iff (rules : List FieldRule) (xors : List (String × String))
    (config : JValue) (r : JValue) :
    joiValidate rules xors config = .ok r ↔
      validateObj "value" rules xors config = .ok r := by
  cases h : validateObj "value" rules xors config with
  | error e => simp [joiValidate, h]
  | ok v => simp [joiValidate, h]

theorem joiValidate_error_of (rules : List FieldRule) (xors : List (String × String))
    (config : JValue) (e : Violation)
    (h : validateObj "value" rules xors config = .error e) :
    joiValidate rules xors config = .error ⟨e⟩ := by
  simp [joiValidate, h]

theorem validateObj_error_of_fields (name : String) (rules : List FieldRule)
    (xors : List (String × String)) (kvs : List (String × JValue)) (e : Violation)
    (h : checkFields rules kvs = .error e) :
    validateObj name rules xors (.vobj kvs) = .error e := by
  simp [validateObj, h]

theorem joiValidate_vobj_ok (rules : List FieldRule) (xors : List (String × String))
    (kvs : List (String × JValue))
    (hf : checkFields rules kvs = .ok ())
    (hu : checkUnknown (rules.map FieldRule.key) kvs = .ok ())
    (hx : checkXors xors kvs = .ok ()) :
    joiValidate rules xors (.vobj kvs) = .ok (.vobj kvs) := by
  simp [joiValidate, validateObj, hf, hu, hx]

theorem validateObj_unknown_not_ok (name : String) (rules : List FieldRule)
    (xors : List (String × String)) (kvs : List (String × JValue)) (k : String)
    (hmem : k ∈ kvs.map Prod.fst)
    (hout : (rules.map FieldRule.key).contains k = false) (r : JValue) :
    validateObj name rules xors (.vobj kvs) ≠ .ok r := by
  intro h
  have h4 := ((validateObj_vobj_ok_iff name rules xors kvs r).mp h).2.2.1
  rw [checkUnknown_ok_iff] at h4
  obtain ⟨kv, hkv, hfst⟩ := List.mem_map.mp hmem
  have hc := h4 kv hkv
  rw [hfst] at hc
  rw [hc] at hout
  exact absurd hout (by decide)

theorem joiValidate_unknown_not_ok (rules : List FieldRule)
    (xors : List (String × String)) (kvs : List (String × JValue)) (k : String)
    (hmem : k ∈ kvs.map Prod.fst)
    (hout : (rules.map FieldRule.key).contains k = false) :
    isOkB (joiValidate rules xors (.vobj kvs)) = false := by
  cases h : joiValidate rules xors (.vobj kvs) with
  | error e => rfl
  | ok r =>
    exact absurd ((joiValidate_ok_iff rules xors _ r).mp h)
      (validateObj_unknown_not_ok "value" rules xors kvs k hmem hout r)

theorem checkFields_ok_field (rules : List FieldRule) (kvs : List (String × JValue))
    (r : FieldRule) (hmem : r ∈ rules) (h : checkFields rules kvs = .ok ()) :
    ruleOkB r kvs = true :=
  List.all_eq_true.mp ((checkFields_ok_iff rules kvs).mp h) r hmem

theorem isErrB_not_isOkB (r : Except ValidationError JValue) : isErrB r = !(isOkB r) := by
  cases r <;> rfl

/-- Claim C1: validation against `apiAuthenticationValidatorSchema`
succeeds exactly when one of `strategy`/`use` is present: a candidate with
only `use` (a non-empty string, as `Joi.string()` itself rejects `''`)
succeeds, a candidate with only `strategy` (a value the middleware rule
set accepts) succeeds, a candidate with neither field fails
(`object.missing`), a candidate with both fields fails (`object.xor`, the
field values themselves passing their rules); and any candidate the
schema accepts has exactly one of the two keys present. -/
theorem C1_api_strategy_use_xor (mw : JValue → Bool) (s : JValue) (u : String)
    (hs : mw s = true) (hu : u.isEmpty = false) :
    validateApiAuthentication mw (.vobj [("use", .vstr u)]) =
      .ok (.vobj [("use", .vstr u)]) ∧
    validateApiAuthentication mw (.vobj [("strategy", s)]) =
      .ok (.vobj [("strategy", s)]) ∧
    validateApiAuthentication mw (.vobj []) =
      .error ⟨.xorMissing ["strategy", "use"]⟩ ∧
    validateApiAuthentication mw (.vobj [("strategy", s), ("use", .vstr u)]) =
      .error ⟨.xorConflict ["strategy", "use"]⟩ ∧
    (∀ kvs r, validateApiAuthentication mw (.vobj kvs) = .ok r →
      (hasKey "strategy" kvs = true ∧ hasKey "use" kvs = false) ∨
      (hasKey "strategy" kvs = false ∧ hasKey "use" kvs = true)) := by
  refine ⟨?_, ?_, rfl, ?_, ?_⟩
  · simp [validateApiAuthentication, joiValidate, validateObj, checkFields,
      apiAuthenticationValidatorRules, findVal, mwCheck, hu, checkUnknown,
      checkXors, hasKey, apiAuthenticationValidatorXors, checkGroup, checkStr,
      checkArrStr]
  · simp [validateApiAuthentication, joiValidate, validateObj, checkFields,
      apiAuthenticationValidatorRules, findVal, mwCheck, hs, checkUnknown,
      checkXors, hasKey, apiAuthenticationValidatorXors, checkGroup, checkStr]
  · simp [validateApiAuthentication, joiValidate, validateObj, checkFields,
      apiAuthenticationValidatorRules, findVal, mwCheck, hs, hu, checkUnknown,
      checkXors, hasKey, apiAuthenticationValidatorXors, checkGroup, checkStr,
      checkArrStr]
  · intro kvs r h
    unfold validateApiAuthentication at h
    have hx := ((validateObj_vobj_ok_iff _ _ _ _ _).mp
      ((joiValidate_ok_iff _ _ _ _).mp h)).2.2.2
    simp only [apiAuthenticationValidatorXors] at hx
    cases hS : hasKey "strategy" kvs <;> cases hU : hasKey "use" kvs
    · simp [checkXors, hS, hU] at hx
    · exact Or.inr ⟨rfl, rfl⟩
    · exact Or.inl ⟨rfl, rfl⟩
    · simp [checkXors, hS, hU] at hx

theorem C1_witness :
    validateApiAuthentication mwAll (.vobj [("use", .vstr "foo")]) =
      .ok (.vobj [("use", .vstr "foo")]) ∧
    validateApiAuthentication mwAll (.vobj [("strategy", .vstr "mid")]) =
      .ok (.vobj [("strategy", .vstr "mid")]) ∧
    validateApiAuthentication mwAll (.vobj []) =
      .error ⟨.xorMissing ["strategy", "use"]⟩ ∧
    validateApiAuthentication mwAll (.vobj [("strategy", .vstr "mid"), ("use", .vstr "foo")]) =
      .error ⟨.xorConflict ["strategy", "use"]⟩ ∧
    (∀ kvs r, validateApiAuthentication mwAll (.vobj kvs) = .ok r →
      (hasKey "strategy" kvs = true ∧ hasKey "use" kvs = false) ∨
      (hasKey "strategy" kvs = false ∧ hasKey "use" kvs = true)) :=
  C1_api_strategy_use_xor mwAll (.vstr "mid") "foo" rfl rfl

/-- Claim C2 is refuted at this input: the candidate
`{ verify: "handler" }` (a valid `verify`, both name fields omitted)
validates successfully, but the returned value is the input unchanged —
`usernameField` is absent from it rather than equal to `"username"`
(and `passwordField` is absent rather than `"password"`): the schema
declares the two fields as plain optional strings with no `.default`. -/
theorem C2_counterexample :
    validateLocalAuthConfig mwAll (.vobj [("verify", .vstr "handler")]) =
      .ok (.vobj [("verify", .vstr "handler")]) ∧
    findVal "usernameField" [("verify", .vstr "handler")] = none ∧
    findVal "passwordField" [("verify", .vstr "handler")] = none :=
  ⟨rfl, rfl, rfl⟩

/-- Claim C2 (amended): for every `LocalAuthentication` candidate with a
valid required `verify` field and both `usernameField` and `passwordField`
omitted, `validateLocalAuthConfig` succeeds and returns the input
unchanged; in particular the returned value still omits `usernameField`
and `passwordField` — no `"username"`/`"password"` defaults are applied
by the validator. -/
theorem C2_local_no_defaults_applied (mw : JValue → Bool) (v : JValue)
    (hv : mw v = true) :
    validateLocalAuthConfig mw (.vobj [("verify", v)]) =
      .ok (.vobj [("verify", v)]) ∧
    findVal "usernameField" [("verify", v)] = none ∧
    findVal "passwordField" [("verify", v)] = none := by
  refine ⟨?_, rfl, rfl⟩
  simp [validateLocalAuthConfig, joiValidate, validateObj, checkFields,
    localAuthenticationSchema, findVal, mwCheck, hv, checkUnknown, checkXors]

theorem C2_witness :
    validateLocalAuthConfig mwAll (.vobj [("verify", .vstr "handler")]) =
      .ok (.vobj [("verify", .vstr "handler")]) ∧
    findVal "usernameField" [("verify", .vstr "handler")] = none ∧
    findVal "passwordField" [("verify", .vstr "handler")] = none :=
  C2_local_no_defaults_applied mwAll (.vstr "handler") rfl

/-- Claim C4: a `JWTAuthentication` candidate that omits `secretOrKey`
(and whose other declared keys, processed before `secretOrKey` under
Joi's abort-early order, pass their own rules) fails with a
required-field violation naming `secretOrKey`, wrapped in a
`ValidationError`. -/
theorem C4_jwt_secret_required (mw : JValue → Bool)
    (kvs : List (String × JValue))
    (habs : findVal "secretOrKey" kvs = none)
    (hpre : jwtRulesBeforeSecret.all (fun r => ruleOkB r kvs) = true) :
    validateJwtAuthConfig mw (.vobj kvs) =
      .error ⟨.requiredMissing "secretOrKey"⟩ := by
  unfold validateJwtAuthConfig
  apply joiValidate_error_of
  apply validateObj_error_of_fields
  have hdec : jwtAuthenticationSchema mw =
      jwtRulesBeforeSecret ++ ⟨"secretOrKey", true, checkStr "secretOrKey"⟩ ::
        [⟨"verify", false, mwCheck mw "verify"⟩] := rfl
  rw [hdec]
  exact checkFields_required_absent _ _ _ _ _ hpre habs

theorem C4_witness :
    validateJwtAuthConfig mwAll (.vobj [("issuer", .vstr "me")]) =
      .error ⟨.requiredMissing "secretOrKey"⟩ :=
  C4_jwt_secret_required mwAll [("issuer", .vstr "me")] rfl rfl

/-- Claim C5: a `BasicAuthentication` candidate without `verify` fails
with a required-field violation on `verify`, and so does a
`LocalAuthentication` candidate without `verify` (whose optional
`passwordField`/`usernameField` keys, processed before `verify`, pass
their rules). -/
theorem C5_verify_required (mw : JValue → Bool)
    (kvsB kvsL : List (String × JValue))
    (hB : findVal "verify" kvsB = none)
    (hL : findVal "verify" kvsL = none)
    (hLpre : localRulesBeforeVerify.all (fun r => ruleOkB r kvsL) = true) :
    validateBasicAuthConfig mw (.vobj kvsB) =
      .error ⟨.requiredMissing "verify"⟩ ∧
    validateLocalAuthConfig mw (.vobj kvsL) =
      .error ⟨.requiredMissing "verify"⟩ := by
  constructor
  · unfold validateBasicAuthConfig
    apply joiValidate_error_of
    apply validateObj_error_of_fields
    have hdec : basicAuthenticationSchema mw =
        [] ++ ⟨"verify", true, mwCheck mw "verify"⟩ :: [] := rfl
    rw [hdec]
    exact checkFields_required_absent _ _ _ _ _ rfl hB
  · unfold validateLocalAuthConfig
    apply joiValidate_error_of
    apply validateObj_error_of_fields
    have hdec : localAuthenticationSchema mw =
        localRulesBeforeVerify ++ ⟨"verify", true, mwCheck mw "verify"⟩ :: [] := rfl
    rw [hdec]
    exact checkFields_required_absent _ _ _ _ _ hLpre hL

theorem C5_witness :
    validateBasicAuthConfig mwAll (.vobj []) =
      .error ⟨.requiredMissing "verify"⟩ ∧
    validateLocalAuthConfig mwAll (.vobj [("usernameField", .vstr "email")]) =
      .error ⟨.requiredMissing "verify"⟩ :=
  C5_verify_required mwAll [] [("usernameField", .vstr "email")] rfl rfl rfl

/-- Claim C6: a valid `JWTAuthentication` candidate with `secretOrKey`
present as a string (every declared key passing its rule, no unknown
keys) validates successfully, and the returned normalized value is the
input object unchanged — in particular its `secretOrKey` is the same
string the input carried. -/
theorem C6_jwt_valid_secret_unchanged (mw : JValue → Bool)
    (kvs : List (String × JValue)) (s : String)
    (hsk : findVal "secretOrKey" kvs = some (.vstr s))
    (hrules : (jwtAuthenticationSchema mw).all (fun r => ruleOkB r kvs) = true)
    (hkeys : ∀ kv ∈ kvs,
      ((jwtAuthenticationSchema mw).map FieldRule.key).contains kv.1 = true) :
    validateJwtAuthConfig mw (.vobj kvs) = .ok (.vobj kvs) ∧
    findVal "secretOrKey" kvs = some (.vstr s) := by
  refine ⟨?_, hsk⟩
  unfold validateJwtAuthConfig
  exact joiValidate_vobj_ok _ _ _ ((checkFields_ok_iff _ _).mpr hrules)
    ((checkUnknown_ok_iff _ _).mpr hkeys) rfl

theorem C6_witness :
    validateJwtAuthConfig mwAll
        (.vobj [("issuer", .vstr "auth0"), ("secretOrKey", .vstr "super-secret")]) =
      .ok (.vobj [("issuer", .vstr "auth0"), ("secretOrKey", .vstr "super-secret")]) ∧
    findVal "secretOrKey" [("issuer", .vstr "auth0"), ("secretOrKey", .vstr "super-secret")] =
      some (.vstr "super-secret") :=
  C6_jwt_valid_secret_unchanged mwAll
    [("issuer", .vstr "auth0"), ("secretOrKey", .vstr "super-secret")]
    "super-secret" rfl rfl (by decide)

/-- Claim C7: no exclusivity is enforced among the `JWTRequestExtractor`
extraction-location fields: a `JWTAuthentication` candidate whose
`extractFrom` sets both `header` and `cookie` (to non-empty strings, as
each location rule is `Joi.string()`) validates successfully, and the
extractor rule set itself accepts an object setting all five locations
at once. -/
theorem C7_extractor_no_exclusivity (mw : JValue → Bool) (s h c a b q : String)
    (hs : s.isEmpty = false) (hh : h.isEmpty = false) (hc : c.isEmpty = false)
    (ha : a.isEmpty = false) (hb : b.isEmpty = false) (hq : q.isEmpty = false) :
    validateJwtAuthConfig mw (.vobj
        [("extractFrom", .vobj [("cookie", .vstr c), ("header", .vstr h)]),
         ("secretOrKey", .vstr s)]) =
      .ok (.vobj
        [("extractFrom", .vobj [("cookie", .vstr c), ("header", .vstr h)]),
         ("secretOrKey", .vstr s)]) ∧
    validateObj "extractFrom" jwtRequestExtractorSchema []
        (.vobj [("authHeader", .vstr a), ("bodyField", .vstr b), ("cookie", .vstr c),
                ("header", .vstr h), ("queryParam", .vstr q)]) =
      .ok (.vobj [("authHeader", .vstr a), ("bodyField", .vstr b), ("cookie", .vstr c),
                  ("header", .vstr h), ("queryParam", .vstr q)]) := by
  constructor
  · simp [validateJwtAuthConfig, joiValidate, validateObj, checkFields,
      jwtAuthenticationSchema, jwtRequestExtractorSchema, findVal, checkStr,
      hs, hh, hc, checkUnknown, checkXors]
  · simp [validateObj, checkFields, jwtRequestExtractorSchema, findVal, checkStr,
      ha, hb, hc, hh, hq, checkUnknown, checkXors]

theorem C7_witness :
    validateJwtAuthConfig mwAll (.vobj
        [("extractFrom", .vobj [("cookie", .vstr "jwt"), ("header", .vstr "X-Token")]),
         ("secretOrKey", .vstr "shh")]) =
      .ok (.vobj
        [("extractFrom", .vobj [("cookie", .vstr "jwt"), ("header", .vstr "X-Token")]),
         ("secretOrKey", .vstr "shh")]) ∧
    validateObj "extractFrom" jwtRequestExtractorSchema []
        (.vobj [("authHeader", .vstr "bearer"), ("bodyField", .vstr "tok"),
                ("cookie", .vstr "jwt"), ("header", .vstr "X-Token"),
                ("queryParam", .vstr "t")]) =
      .ok (.vobj [("authHeader", .vstr "bearer"), ("bodyField", .vstr "tok"),
                  ("cookie", .vstr "jwt"), ("header", .vstr "X-Token"),
                  ("queryParam", .vstr "t")]) :=
  C7_extractor_no_exclusivity mwAll "shh" "X-Token" "jwt" "bearer" "tok" "t"
    rfl rfl rfl rfl rfl rfl

/-- Claim C8: each validation entry point either fails with a
`ValidationError` or returns a normalized value, and never both — on
every input the outcome is an error exactly when it is not a returned
value, so a caller never receives a partially-normalized value together
with an error. -/
theorem C8_throw_xor_return (mw : JValue → Bool) (c : JValue) :
    isErrB (validateLocalAuthConfig mw c) = !(isOkB (validateLocalAuthConfig mw c)) ∧
    isErrB (validateBasicAuthConfig mw c) = !(isOkB (validateBasicAuthConfig mw c)) ∧
    isErrB (validateJwtAuthConfig mw c) = !(isOkB (validateJwtAuthConfig mw c)) :=
  ⟨isErrB_not_isOkB _, isErrB_not_isOkB _, isErrB_not_isOkB _⟩

/-- Claim C9: the validation entry points are pure functions of their
input: two calls of the same entry point on equal candidate values (with
the same middleware rule set) produce equal outcomes. -/
theorem C9_entry_points_deterministic (mw : JValue → Bool) (c₁ c₂ : JValue)
    (h : c₁ = c₂) :
    validateLocalAuthConfig mw c₁ = validateLocalAuthConfig mw c₂ ∧
    validateBasicAuthConfig mw c₁ = validateBasicAuthConfig mw c₂ ∧
    validateJwtAuthConfig mw c₁ = validateJwtAuthConfig mw c₂ := by
  subst h
  exact ⟨rfl, rfl, rfl⟩

theorem C9_witness :
    validateLocalAuthConfig mwAll (.vobj []) = validateLocalAuthConfig mwAll (.vobj []) ∧
    validateBasicAuthConfig mwAll (.vobj []) = validateBasicAuthConfig mwAll (.vobj []) ∧
    validateJwtAuthConfig mwAll (.vobj []) = validateJwtAuthConfig mwAll (.vobj []) :=
  C9_entry_points_deterministic mwAll (.vobj []) (.vobj []) rfl

/-- Claim C10: a candidate carrying a key outside the fields declared by
the matching schema is never accepted by the corresponding entry point
(unknown keys are rejected, not stripped or ignored), uniformly for the
local, basic and jwt schemas, and also for the nested
`JWTRequestExtractor` object under `extractFrom`. -/
theorem C10_unknown_keys_rejected :
    (∀ (mw : JValue → Bool) (kvs : List (String × JValue)) (k : String),
      k ∈ kvs.map Prod.fst →
      ((localAuthenticationSchema mw).map FieldRule.key).contains k = false →
      isOkB (validateLocalAuthConfig mw (.vobj kvs)) = false) ∧
    (∀ (mw : JValue → Bool) (kvs : List (String × JValue)) (k : String),
      k ∈ kvs.map Prod.fst →
      ((basicAuthenticationSchema mw).map FieldRule.key).contains k = false →
      isOkB (validateBasicAuthConfig mw (.vobj kvs)) = false) ∧
    (∀ (mw : JValue → Bool) (kvs : List (String × JValue)) (k : String),
      k ∈ kvs.map Prod.fst →
      ((jwtAuthenticationSchema mw).map FieldRule.key).contains k = false →
      isOkB (validateJwtAuthConfig mw (.vobj kvs)) = false) ∧
    (∀ (mw : JValue → Bool) (kvs inner : List (String × JValue)) (k : String),
      findVal "extractFrom" kvs = some (.vobj inner) →
      k ∈ inner.map Prod.fst →
      (jwtRequestExtractorSchema.map FieldRule.key).contains k = false →
      isOkB (validateJwtAuthConfig mw (.vobj kvs)) = false) := by
  refine ⟨?_, ?_, ?_, ?_⟩
  · intro mw kvs k hmem hout
    unfold validateLocalAuthConfig
    exact joiValidate_unknown_not_ok _ _ _ _ hmem hout
  · intro mw kvs k hmem hout
    unfold validateBasicAuthConfig
    exact joiValidate_unknown_not_ok _ _ _ _ hmem hout
  · intro mw kvs k hmem hout
    unfold validateJwtAuthConfig
    exact joiValidate_unknown_not_ok _ _ _ _ hmem hout
  · intro mw kvs inner k hext hmem hout
    cases h : validateJwtAuthConfig mw (.vobj kvs) with
    | error e => rfl
    | ok r =>
      exfalso
      unfold validateJwtAuthConfig at h
      have hv := (joiValidate_ok_iff _ _ _ _).mp h
      have hf := ((validateObj_vobj_ok_iff _ _ _ _ _).mp hv).2.1
      have hmemr : (⟨"extractFrom", false,
          validateObj "extractFrom" jwtRequestExtractorSchema []⟩ : FieldRule) ∈
          jwtAuthenticationSchema mw := by
        have hdec : jwtAuthenticationSchema mw =
            ⟨"algorithms", false, checkArrStr "algorithms"⟩ ::
            ⟨"audience", false, checkStr "audience"⟩ ::
            ⟨"extractFrom", false, validateObj "extractFrom" jwtRequestExtractorSchema []⟩ ::
            [⟨"ignoreExpiration", false, checkBool "ignoreExpiration"⟩,
             ⟨"issuer", false, checkStr "issuer"⟩,
             ⟨"secretOrKey", true, checkStr "secretOrKey"⟩,
             ⟨"verify", false, mwCheck mw "verify"⟩] := rfl
        rw [hdec]
        exact List.Mem.tail _ (List.Mem.tail _ (List.Mem.head _))
      have hrule := checkFields_ok_field _ _ _ hmemr hf
      simp only [ruleOkB, hext] at hrule
      cases hio : validateObj "extractFrom" jwtRequestExtractorSchema [] (.vobj inner) with
      | error e => rw [hio] at hrule; simp at hrule
      | ok v' => exact validateObj_unknown_not_ok _ _ _ _ _ hmem hout v' hio

theorem C10_witness :
    isOkB (validateLocalAuthConfig mwAll
      (.vobj [("bogus", .vstr "x"), ("verify", .vstr "h")])) = false ∧
    isOkB (validateBasicAuthConfig mwAll
      (.vobj [("bogus", .vstr "x"), ("verify", .vstr "h")])) = false ∧
    isOkB (validateJwtAuthConfig mwAll
      (.vobj [("bogus", .vstr "x"), ("secretOrKey", .vstr "s")])) = false ∧
    isOkB (validateJwtAuthConfig mwAll
      (.vobj [("extractFrom", .vobj [("bogus", .vstr "x")]),
              ("secretOrKey", .vstr "s")])) = false :=
  ⟨C10_unknown_keys_rejected.1 mwAll
      [("bogus", .vstr "x"), ("verify", .vstr "h")] "bogus" (by decide) (by decide),
   C10_unknown_keys_rejected.2.1 mwAll
      [("bogus", .vstr "x"), ("verify", .vstr "h")] "bogus" (by decide) (by decide),
   C10_unknown_keys_rejected.2.2.1 mwAll
      [("bogus", .vstr "x"), ("secretOrKey", .vstr "s")] "bogus" (by decide) (by decide),
   C10_unknown_keys_rejected.2.2.2 mwAll
      [("extractFrom", .vobj [("bogus", .vstr "x")]), ("secretOrKey", .vstr "s")]
      [("bogus", .vstr "x")] "bogus" rfl (by decide) (by decide)⟩
